import Mathlib

/-!
Verification development for the ADABRA buzzer server (src/server.js,
current revision: the handlers at lines 515-1412).  The per-room game
state and every state-mutating socket handler are embedded as executable
Lean definitions; machine timestamps are passed in explicitly as the
`now` argument (the JS code reads `Date.now()`).  Side outputs (socket
emits and broadcasts) are returned as an ordered list of events.
-/

namespace Adabra

/-- `room.phase`: "lobby" | "armed" | "locked". -/
inductive Phase where
  | lobby
  | armed
  | locked
deriving DecidableEq, Repr

/-- One entry of `room.teams`: `{ id, name, score }`. -/
structure Team where
  id : String
  name : String
  score : Int
deriving DecidableEq, Repr

/-- The per-socket data the handlers read (`socket.data`). -/
structure Sender where
  isHost : Bool
  playerId : Option String
  teamId : Option String
deriving DecidableEq, Repr

/-- Events emitted to the sender or broadcast to the room.  `roomState`
stands for the `emitRoomState` broadcast of the public view. -/
inductive SEvent where
  | errorMsg (msg : String)
  | kicked
  | buzzRejected (reason : String)
  | teamSet (teamId : String)
  | joinedRoom (isHost : Bool)
  | beep
  | buzzed (teamId : String)
  | timeUp
  | correctFx (teamId : String)
  | roomState
deriving DecidableEq, Repr

/-- Association-list model of a JS `Map` (insertion ordered): `get`. -/
def alGet : List (String × String) → String → Option String
  | [], _ => none
  | p :: rest, k => if p.1 = k then some p.2 else alGet rest k

/-- JS `Map.set`: overwrite in place when the key is present, else
append (keys are unique in a `Map`, so replacing the first hit is it). -/
def alSet : List (String × String) → String → String → List (String × String)
  | [], k, v => [(k, v)]
  | p :: rest, k, v => if p.1 = k then (k, v) :: rest else p :: alSet rest k v

/-- JS `Map.delete`. -/
def alDelete : List (String × String) → String → List (String × String)
  | [], _ => []
  | p :: rest, k => if p.1 = k then alDelete rest k else p :: alDelete rest k

/-- Lookup `room.teams[t]` (the JS object keyed by team id). -/
def getTeam : List Team → String → Option Team
  | [], _ => none
  | tm :: rest, t => if tm.id = t then some tm else getTeam rest t

/-- In-place update of the team with id `t`. -/
def modTeam : List Team → String → (Team → Team) → List Team
  | [], _, _ => []
  | tm :: rest, t, f => (if tm.id = t then f tm else tm) :: modTeam rest t f

/-- `makeTeams(count)`: teams "1".."count" named `Team i`, score 0. -/
def makeTeams (count : Nat) : List Team :=
  (List.range count).map
    (fun i => { id := toString (i + 1), name := "Team " ++ toString (i + 1), score := 0 })

/-- Model of `String.prototype.trim`. -/
def jsTrim (s : String) : String :=
  String.mk (((s.data.dropWhile Char.isWhitespace).reverse.dropWhile Char.isWhitespace).reverse)

/-- Helper for `collapseWs`; the flag records whether the previous
character was whitespace (already emitted as one space). -/
def collapseWsAux : Bool → List Char → List Char
  | _, [] => []
  | prevWs, c :: rest =>
    if c.isWhitespace then
      if prevWs then collapseWsAux true rest
      else ' ' :: collapseWsAux true rest
    else c :: collapseWsAux false rest

/-- Model of `replace(/\s+/g, " ")`: collapse whitespace runs to one space. -/
def collapseWs (cs : List Char) : List Char := collapseWsAux false cs

/-- The mutable room state (`rooms.get(code)`), with the fields the
handlers read or write.  `roomCode`, `hostKey` and `createdAt` are
immutable identity fields and are omitted. -/
structure Room where
  lastActivityAt : Int
  timeUpAt : Option Int
  membersCount : Int
  teamTaken : List (String × String)
  teamNameLocked : Finset String
  phase : Phase
  roundNumber : Int
  durationMs : Int
  remainingMs : Int
  timerRunning : Bool
  timerLastTickAt : Option Int
  lockedBySocketId : Option String
  lockedByTeamId : Option String
  lastBuzz : Option (String × String)
  lockedByPlayerId : Option String
  firstBuzzTeamId : Option String
  gameOver : Bool
  winnerTeamId : Option String
  winnerText : Option String
  beepAt : Option Int
  maxTeams : Int
  teams : List Team
  lockedOutTeams : Finset String
  playerTeams : List (String × String)
  fairPlayEnabled : Bool
  focusLockedTeams : Finset String
  falseStartTeams : Finset String
  kickedPlayers : Finset String
deriving DecidableEq

/-- `createRoom()`: the fresh room state (creation instant taken as 0). -/
def initialRoom : Room where
  lastActivityAt := 0
  timeUpAt := none
  membersCount := 0
  teamTaken := []
  teamNameLocked := ∅
  phase := .lobby
  roundNumber := 0
  durationMs := 15000
  remainingMs := 15000
  timerRunning := false
  timerLastTickAt := none
  lockedBySocketId := none
  lockedByTeamId := none
  lastBuzz := none
  lockedByPlayerId := none
  firstBuzzTeamId := none
  gameOver := false
  winnerTeamId := none
  winnerText := none
  beepAt := none
  maxTeams := 6
  teams := makeTeams 2
  lockedOutTeams := ∅
  playerTeams := []
  fairPlayEnabled := true
  focusLockedTeams := ∅
  falseStartTeams := ∅
  kickedPlayers := ∅

/-- `touchRoom(room)`: refresh `lastActivityAt`. -/
def touchRoom (room : Room) (now : Int) : Room :=
  { room with lastActivityAt := now }

/-- `isKicked(socket, room)`. -/
def isKicked (room : Room) (sender : Sender) : Bool :=
  match sender.playerId with
  | some pid => decide (pid ∈ room.kickedPlayers)
  | none => false

/-- `resetToLobby(room)`. -/
def resetToLobby (room : Room) : Room :=
  { room with
    phase := .lobby
    timerRunning := false
    timerLastTickAt := none
    remainingMs := room.durationMs
    lockedBySocketId := none
    lockedByTeamId := none
    lastBuzz := none
    focusLockedTeams := ∅
    firstBuzzTeamId := none
    lockedByPlayerId := none
    gameOver := false
    winnerTeamId := none
    winnerText := none
    lockedOutTeams := ∅
    falseStartTeams := ∅ }

/-- The error every `gameOver`-gated host handler replies with. -/
def gameOverMsg : String := "Game is over. Create a new room."

/-- The `hostBeepStart` handler (host sender, room resolved). -/
def hostBeepStart (room : Room) (now : Int) : Room × List SEvent :=
  let room := touchRoom room now
  if room.gameOver then (room, [.errorMsg gameOverMsg])
  else
    let room :=
      { room with
        timeUpAt := none
        falseStartTeams := ∅
        focusLockedTeams := ∅
        phase := .armed
        lockedBySocketId := none
        lockedByTeamId := none
        lastBuzz := none
        firstBuzzTeamId := none
        remainingMs := room.durationMs
        timerRunning := true
        timerLastTickAt := some now
        beepAt := some now }
    (room, [.beep, .roomState])

/-- The `hostPauseTimer` handler. -/
def hostPauseTimer (room : Room) (now : Int) : Room × List SEvent :=
  let room := touchRoom room now
  if room.gameOver then (room, [.errorMsg gameOverMsg])
  else
    let room :=
      { room with
        timerRunning := false
        timerLastTickAt := none
        remainingMs := room.durationMs
        phase := .lobby
        lastBuzz := none
        lockedByTeamId := none
        lockedByPlayerId := none
        lockedOutTeams := ∅
        firstBuzzTeamId := none }
    (room, [.roomState])

/-- The `hostSetDuration` handler; `seconds` is the numeric payload. -/
def hostSetDuration (room : Room) (seconds : ℚ) (now : Int) : Room × List SEvent :=
  let room := touchRoom room now
  if room.gameOver then (room, [.errorMsg gameOverMsg])
  else if seconds ≤ 0 ∨ 600 < seconds then
    (room, [.errorMsg "Duration must be 1..600 seconds."])
  else
    let room := { room with durationMs := Rat.floor (seconds * 1000) }
    let room :=
      if room.timerRunning then room else { room with remainingMs := room.durationMs }
    (room, [.roomState])

/-- The `hostSetFairPlay` handler (note: not gated by `gameOver`). -/
def hostSetFairPlay (room : Room) (enabled : Bool) (now : Int) : Room × List SEvent :=
  let room := touchRoom room now
  let room := { room with fairPlayEnabled := enabled }
  let room := if room.fairPlayEnabled then room else { room with focusLockedTeams := ∅ }
  (room, [.roomState])

/-- The `hostSetTeamCount` handler; `count` already passed
`Number.isInteger`. -/
def hostSetTeamCount (room : Room) (count : Int) (now : Int) : Room × List SEvent :=
  let room := touchRoom room now
  if room.gameOver then (room, [.errorMsg gameOverMsg])
  else if count < 2 ∨ room.maxTeams < count then
    (room, [.errorMsg "Team count must be between 2 and 6."])
  else
    let current : Int := room.teams.length
    if count < current then (room, [.errorMsg "Can only increase team count for now."])
    else if count = current then (room, [])
    else
      let added := (List.range (count - current).toNat).map
        (fun i =>
          let id := toString (room.teams.length + i + 1)
          ({ id := id, name := "Team " ++ id, score := 0 } : Team))
      ({ room with teams := room.teams ++ added }, [.roomState])

/-- The `hostNextRound` handler. -/
def hostNextRound (room : Room) (now : Int) : Room × List SEvent :=
  let room := touchRoom room now
  if room.gameOver then (room, [.errorMsg gameOverMsg])
  else
    let room := { room with roundNumber := room.roundNumber + 1, timeUpAt := none }
    (resetToLobby room, [.roomState])

/-- The `hostIncorrect` handler. -/
def hostIncorrect (room : Room) (now : Int) : Room × List SEvent :=
  let room := touchRoom room now
  if room.gameOver then (room, [.errorMsg gameOverMsg])
  else if room.phase ≠ .locked then (room, [])
  else
    let room :=
      match room.lockedByTeamId with
      | some t => { room with lockedOutTeams := insert t room.lockedOutTeams }
      | none => room
    let room :=
      { room with
        phase := .armed
        lockedBySocketId := none
        lockedByTeamId := none
        lastBuzz := none
        lockedByPlayerId := none }
    let room :=
      if (0 : Int) < room.remainingMs then
        { room with timerRunning := true, timerLastTickAt := some now }
      else room
    (room, [.roomState])

/-- The `hostCorrect` handler. -/
def hostCorrect (room : Room) (now : Int) : Room × List SEvent :=
  let room := touchRoom room now
  if room.gameOver then (room, [.errorMsg gameOverMsg])
  else if room.phase ≠ .locked then (room, [])
  else
    let scored : Option String :=
      match room.lockedByTeamId with
      | some t => if (getTeam room.teams t).isSome then some t else none
      | none => none
    let room :=
      match scored with
      | some t => { room with teams := modTeam room.teams t (fun tm => { tm with score := tm.score + 1 }) }
      | none => room
    let fx : List SEvent :=
      match scored with
      | some t => [.correctFx t]
      | none => []
    let room := { room with roundNumber := room.roundNumber + 1, timeUpAt := none }
    (resetToLobby room, fx ++ [.roomState])

/-- The `hostAdjustScore` handler; `delta` already passed
`Number.isInteger`. -/
def hostAdjustScore (room : Room) (teamId : String) (delta : Int) (now : Int) :
    Room × List SEvent :=
  let room := touchRoom room now
  if room.gameOver then (room, [.errorMsg gameOverMsg])
  else
    let t := jsTrim teamId
    if (getTeam room.teams t).isNone ∨ 100 < |delta| then
      (room, [.errorMsg "Invalid score adjustment."])
    else
      ({ room with teams := modTeam room.teams t (fun tm => { tm with score := tm.score + delta }) },
       [.roomState])

/-- The `hostUnblockFocus` handler (note: not gated by `gameOver`). -/
def hostUnblockFocus (room : Room) (teamId : String) (now : Int) : Room × List SEvent :=
  let room := touchRoom room now
  let t := jsTrim teamId
  if (getTeam room.teams t).isNone then (room, [.errorMsg "Invalid team."])
  else ({ room with focusLockedTeams := room.focusLockedTeams.erase t }, [.roomState])

/-- The `hostRemoveTeam` handler (note: not gated by `gameOver`). -/
def hostRemoveTeam (room : Room) (teamId : String) (now : Int) : Room × List SEvent :=
  let room := touchRoom room now
  let t := jsTrim teamId
  if (getTeam room.teams t).isNone then (room, [.errorMsg "Invalid team."])
  else
    let kickedPlayerId := alGet room.teamTaken t
    let room := { room with teamTaken := alDelete room.teamTaken t }
    let room :=
      match kickedPlayerId with
      | some pid =>
        { room with
          playerTeams := alDelete room.playerTeams pid
          kickedPlayers := insert pid room.kickedPlayers }
      | none => room
    let room :=
      { room with
        teams := modTeam room.teams t (fun tm => { tm with name := "Team " ++ t, score := 0 })
        teamNameLocked := room.teamNameLocked.erase t
        lockedOutTeams := room.lockedOutTeams.erase t
        falseStartTeams := room.falseStartTeams.erase t
        focusLockedTeams := room.focusLockedTeams.erase t }
    let room :=
      if room.lockedByTeamId = some t then
        let room :=
          { room with
            lockedByTeamId := none
            lockedByPlayerId := none
            lastBuzz := none
            phase := .armed }
        if (0 : Int) < room.remainingMs then
          { room with timerRunning := true, timerLastTickAt := some now }
        else room
      else room
    let kickedEvents : List SEvent :=
      match kickedPlayerId with
      | some _ => [.kicked]
      | none => []
    let room :=
      { room with
        teamTaken := room.teamTaken.filter (fun p => (alGet room.playerTeams p.2).isSome) }
    (room, kickedEvents ++ [.roomState])

/-- The `hostEndRound` handler. -/
def hostEndRound (room : Room) (now : Int) : Room × List SEvent :=
  let room := touchRoom room now
  if room.gameOver then (room, [.errorMsg gameOverMsg])
  else
    let room :=
      { room with
        timerRunning := false
        timerLastTickAt := none
        phase := .lobby
        timeUpAt := none }
    match room.teams with
    | [] =>
      ({ room with gameOver := true, winnerTeamId := none, winnerText := some "NO TEAMS" },
       [.roomState])
    | t0 :: rest =>
      let maxScore := (rest.map (fun tm => tm.score)).foldl max t0.score
      let winners := (t0 :: rest).filter (fun tm => tm.score == maxScore)
      let room := { room with gameOver := true }
      match winners with
      | [w] =>
        ({ room with winnerTeamId := some w.id, winnerText := some ("ðŸ¥‡" ++ w.name ++ " WON !ðŸ¥‡") },
         [.roomState])
      | ws =>
        ({ room with
           winnerTeamId := none
           winnerText := some ("TIE (" ++ String.intercalate " & " (ws.map (fun w => w.name)) ++ ")") },
         [.roomState])

/-- The `setTeam` handler (player chooses a team once per room). -/
def setTeam (room : Room) (sender : Sender) (teamId : String) (now : Int) :
    Room × List SEvent :=
  if isKicked room sender then (room, [.kicked])
  else
    let room := touchRoom room now
    if sender.isHost then (room, [.errorMsg "Host cannot select a team."])
    else
      match sender.playerId with
      | none => (room, [.errorMsg "Missing playerId. Refresh /play."])
      | some pid =>
        let requested := jsTrim teamId
        if (getTeam room.teams requested).isNone then (room, [.errorMsg "Invalid team."])
        else
          match alGet room.playerTeams pid with
          | some existing => (room, [.teamSet existing])
          | none =>
            match alGet room.teamTaken requested with
            | some takenBy =>
              if takenBy ≠ pid then
                (room, [.errorMsg "This team is already taken in this room."])
              else
                ({ room with
                   playerTeams := alSet room.playerTeams pid requested
                   teamTaken := alSet room.teamTaken requested pid },
                 [.teamSet requested, .roomState])
            | none =>
              ({ room with
                 playerTeams := alSet room.playerTeams pid requested
                 teamTaken := alSet room.teamTaken requested pid },
               [.teamSet requested, .roomState])

/-- The `setTeamName` handler. -/
def setTeamName (room : Room) (sender : Sender) (name : String) (now : Int) :
    Room × List SEvent :=
  if isKicked room sender then (room, [.errorMsg "You were removed by host."])
  else
    let room := touchRoom room now
    if sender.isHost then (room, [.errorMsg "Host cannot set team name."])
    else
      match sender.teamId with
      | none => (room, [.errorMsg "Choose a team first."])
      | some teamId =>
        match sender.playerId with
        | none => (room, [.errorMsg "You do not own this team."])
        | some pid =>
          if alGet room.teamTaken teamId ≠ some pid then
            (room, [.errorMsg "You do not own this team."])
          else if teamId ∈ room.teamNameLocked then
            (room, [.errorMsg "Team name can be changed only once per session."])
          else
            let cleaned := jsTrim name
            if cleaned.data.length < 2 ∨ 16 < cleaned.data.length then
              (room, [.errorMsg "Team name must be 2..16 characters."])
            else
              let safe := String.mk (collapseWs cleaned.data)
              ({ room with
                 teams := modTeam room.teams teamId (fun tm => { tm with name := safe })
                 teamNameLocked := insert teamId room.teamNameLocked },
               [.roomState])

/-- The `playerFocus` handler (FairPlay focus tracking). -/
def playerFocus (room : Room) (sender : Sender) (focused : Bool) (now : Int) :
    Room × List SEvent :=
  if isKicked room sender then (room, [])
  else
    let room := touchRoom room now
    if ¬ room.fairPlayEnabled then (room, [])
    else if focused then (room, [])
    else if room.phase ≠ .armed ∧ room.phase ≠ .locked then (room, [])
    else if isKicked room sender then (room, [])
    else
      match sender.teamId, sender.playerId with
      | some t, some _ =>
        ({ room with focusLockedTeams := insert t room.focusLockedTeams }, [.roomState])
      | _, _ => (room, [])

/-- The `falseStartAttempt` handler (press during lobby). -/
def falseStartAttempt (room : Room) (sender : Sender) (now : Int) : Room × List SEvent :=
  if isKicked room sender then (room, [.kicked])
  else
    let room := touchRoom room now
    if room.phase ≠ .lobby then (room, [])
    else
      match sender.teamId, sender.playerId with
      | some t, some _ =>
        ({ room with
           lockedOutTeams := insert t room.lockedOutTeams
           falseStartTeams := insert t room.falseStartTeams },
         [.roomState])
      | _, _ => (room, [])

/-- The `buzz` handler. -/
def buzz (room : Room) (sender : Sender) (now : Int) : Room × List SEvent :=
  let room := touchRoom room now
  if isKicked room sender then (room, [.kicked])
  else
    match sender.playerId, sender.teamId with
    | some pid, some teamId =>
      if pid ∈ room.kickedPlayers then (room, [.buzzRejected "KICKED"])
      else if alGet room.playerTeams pid ≠ some teamId then (room, [.buzzRejected "NO_TEAM"])
      else if (getTeam room.teams teamId).isNone then (room, [.buzzRejected "NO_TEAM"])
      else if room.phase ≠ .armed then (room, [.buzzRejected "NOT_ARMED"])
      else if room.remainingMs ≤ 0 then (room, [.buzzRejected "TIME_UP"])
      else if teamId ∈ room.lockedOutTeams then (room, [.buzzRejected "TEAM_LOCKED_OUT"])
      else if room.fairPlayEnabled ∧ teamId ∈ room.focusLockedTeams then
        (room, [.buzzRejected "FOCUS_LOCKED"])
      else
        let room :=
          { room with
            phase := .locked
            lockedByPlayerId := some pid
            lockedByTeamId := some teamId
            firstBuzzTeamId :=
              match room.firstBuzzTeamId with
              | some t => some t
              | none => some teamId
            lastBuzz := some (pid, teamId)
            timerRunning := false
            timerLastTickAt := none }
        (room, [.buzzed teamId, .roomState])
    | _, _ => (room, [.buzzRejected "NO_TEAM"])

/-- The `joinRoom` handler, restricted to its effect on the room
(code normalization and room lookup happen at the registry). -/
def joinRoom (room : Room) (isHostJoin : Bool) (playerId : Option String) :
    Room × List SEvent :=
  let kickedOnJoin :=
    match playerId with
    | some pid => decide (pid ∈ room.kickedPlayers)
    | none => false
  if kickedOnJoin then (room, [.kicked])
  else
    let room := { room with membersCount := room.membersCount + 1 }
    let restore : Room × List SEvent :=
      if isHostJoin then (room, [])
      else
        match playerId with
        | some pid =>
          match alGet room.playerTeams pid with
          | some existing =>
            if pid ∈ room.kickedPlayers then
              ({ room with playerTeams := alDelete room.playerTeams pid }, [.kicked])
            else (room, [.teamSet existing])
          | none => (room, [])
        | none => (room, [])
    (restore.1, [.joinedRoom isHostJoin] ++ restore.2 ++ [.roomState])

/-- The `rejoinRoom` handler, restricted to its effect on the room. -/
def rejoinRoom (room : Room) (playerId : String) : Room × List SEvent :=
  let restore : Room × List SEvent :=
    match alGet room.playerTeams playerId with
    | some existing =>
      if playerId ∈ room.kickedPlayers then
        ({ room with playerTeams := alDelete room.playerTeams playerId }, [.kicked])
      else (room, [.teamSet existing])
    | none => (room, [])
  ({ restore.1 with membersCount := restore.1.membersCount + 1 }, restore.2 ++ [.roomState])

/-- The `disconnect` handler (current revision: only `membersCount`
changes; the lock-holder stays locked). -/
def disconnect (room : Room) : Room × List SEvent :=
  ({ room with membersCount := max 0 (room.membersCount - 1) }, [.roomState])

/-- One iteration of the 200 ms timer loop for a single room.  When
`timerLastTickAt` is null the JS code sets it to `now`, which makes the
delta 0 and hits the `continue`; the two match arms mirror that. -/
def tickRoom (room : Room) (now : Int) : Room × List SEvent :=
  if ¬ room.timerRunning then (room, [])
  else
    let room := touchRoom room now
    match room.timerLastTickAt with
    | none => ({ room with timerLastTickAt := some now }, [])
    | some last =>
      if now - last ≤ 0 then (room, [])
      else
      let room :=
        { room with
          timerLastTickAt := some now
          remainingMs := max 0 (room.remainingMs - (now - last)) }
      if room.remainingMs = 0 then
        let room :=
          { room with
            timeUpAt := some now
            timerRunning := false
            timerLastTickAt := none
            remainingMs := 0 }
        let room := resetToLobby room
        let room := { room with remainingMs := 0 }
        (room, [.timeUp, .roomState])
      else (room, [.roomState])

/-- The inputs a room can receive: every socket command, a disconnect,
and the 200 ms timer tick (the "virtual tick client"). -/
inductive Action where
  | joinRoom (isHostJoin : Bool) (playerId : Option String)
  | rejoinRoom (playerId : String)
  | setTeam (sender : Sender) (teamId : String)
  | setTeamName (sender : Sender) (name : String)
  | playerFocus (sender : Sender) (focused : Bool)
  | falseStartAttempt (sender : Sender)
  | buzz (sender : Sender)
  | hostSetTeamCount (count : Int)
  | hostSetDuration (seconds : ℚ)
  | hostNextRound
  | hostBeepStart
  | hostPauseTimer
  | hostIncorrect
  | hostCorrect
  | hostAdjustScore (teamId : String) (delta : Int)
  | hostSetFairPlay (enabled : Bool)
  | hostUnblockFocus (teamId : String)
  | hostRemoveTeam (teamId : String)
  | hostEndRound
  | disconnect
  | tick

/-- Dispatch one input to its handler, at wall-clock time `now`. -/
def applyAction (room : Room) (a : Action) (now : Int) : Room × List SEvent :=
  match a with
  | .joinRoom h p => joinRoom room h p
  | .rejoinRoom p => rejoinRoom room p
  | .setTeam s t => setTeam room s t now
  | .setTeamName s n => setTeamName room s n now
  | .playerFocus s f => playerFocus room s f now
  | .falseStartAttempt s => falseStartAttempt room s now
  | .buzz s => buzz room s now
  | .hostSetTeamCount c => hostSetTeamCount room c now
  | .hostSetDuration s => hostSetDuration room s now
  | .hostNextRound => hostNextRound room now
  | .hostBeepStart => hostBeepStart room now
  | .hostPauseTimer => hostPauseTimer room now
  | .hostIncorrect => hostIncorrect room now
  | .hostCorrect => hostCorrect room now
  | .hostAdjustScore t d => hostAdjustScore room t d now
  | .hostSetFairPlay e => hostSetFairPlay room e now
  | .hostUnblockFocus t => hostUnblockFocus room t now
  | .hostRemoveTeam t => hostRemoveTeam room t now
  | .hostEndRound => hostEndRound room now
  | .disconnect => disconnect room
  | .tick => tickRoom room now

/-- The host handlers that check `room.gameOver` before acting
(`hostSetFairPlay`, `hostUnblockFocus` and `hostRemoveTeam` do not). -/
def isGatedHostCmd : Action → Bool
  | .hostSetTeamCount _ => true
  | .hostSetDuration _ => true
  | .hostNextRound => true
  | .hostBeepStart => true
  | .hostPauseTimer => true
  | .hostIncorrect => true
  | .hostCorrect => true
  | .hostAdjustScore _ _ => true
  | .hostEndRound => true
  | _ => false

/-- Any host command, gated or not. -/
def isHostCmd : Action → Bool
  | .hostSetFairPlay _ => true
  | .hostUnblockFocus _ => true
  | .hostRemoveTeam _ => true
  | a => isGatedHostCmd a

/-- The invariant of spec section 8: the countdown runs only while
`armed`. -/
def phaseTimerInv (r : Room) : Prop :=
  (r.phase = .lobby ∨ r.phase = .locked) → r.timerRunning = false

instance (r : Room) : Decidable (phaseTimerInv r) :=
  inferInstanceAs (Decidable ((r.phase = .lobby ∨ r.phase = .locked) → r.timerRunning = false))

/-- Lower bounds that really are preserved by every input: the clock
values never go negative. -/
def timeNonneg (r : Room) : Prop :=
  0 ≤ r.remainingMs ∧ 0 ≤ r.durationMs

instance (r : Room) : Decidable (timeNonneg r) :=
  inferInstanceAs (Decidable (0 ≤ r.remainingMs ∧ 0 ≤ r.durationMs))

/-- The claimed range invariant `0 ≤ remainingMs ≤ durationMs`. -/
def remInRange (r : Room) : Prop :=
  0 ≤ r.remainingMs ∧ r.remainingMs ≤ r.durationMs

instance (r : Room) : Decidable (remInRange r) :=
  inferInstanceAs (Decidable (0 ≤ r.remainingMs ∧ r.remainingMs ≤ r.durationMs))

/-! Concrete fixtures: a reachable game trace used by the witnesses and
counterexamples below.  Timestamps are successive integers. -/

/-- Player 1 session data after choosing team "1". -/
def sP1 : Sender := { isHost := false, playerId := some "p1", teamId := some "1" }

/-- Player 2 session data after choosing team "2". -/
def sP2 : Sender := { isHost := false, playerId := some "p2", teamId := some "2" }

/-- Fresh room after player 1 claims team "1". -/
def roomA : Room := (setTeam initialRoom sP1 "1" 1).1

/-- ... and player 2 claims team "2". -/
def roomB : Room := (setTeam roomA sP2 "2" 2).1

/-- Host arms the round. -/
def roomArmed : Room := (hostBeepStart roomB 3).1

/-- Player 1 wins the buzz: room is locked. -/
def roomLocked : Room := (buzz roomArmed sP1 4).1

/-- From the lobby, player 1 false-starts: team "1" is locked out. -/
def roomFS : Room := (falseStartAttempt roomB sP1 3).1

/-- The host arms right after the false start. -/
def roomFSArmed : Room := (hostBeepStart roomFS 4).1

/-- During the armed round, player 1 loses window focus (FairPlay). -/
def roomFocusArmed : Room := (playerFocus roomArmed sP1 false 5).1

/-- The host ends the game: `gameOver = true`, focus lock still set. -/
def roomOver : Room := (hostEndRound roomFocusArmed 6).1

/-- A fresh room with the timer running (armed at time 0). -/
def roomRunning : Room := (hostBeepStart initialRoom 0).1

/-- The host shrinks the duration to 1 s while the timer is running. -/
def roomShrunk : Room := (hostSetDuration roomRunning 1 0).1

/-- From the locked room, the host ends the game: `gameOver = true`,
but `hostEndRound` leaves `lockedByTeamId = "1"` set. -/
def roomEndedLocked : Room := (hostEndRound roomLocked 5).1

/-- The ungated `hostRemoveTeam` of the still-locked team "1" re-arms
the finished game and resumes its timer. -/
def roomRearmed : Room := (hostRemoveTeam roomEndedLocked "1" 6).1

/-- The ungated `buzz` by player 2 then locks the gameOver room again:
a reachable room with `phase = locked` and `gameOver = true`. -/
def roomOverLocked : Room := (buzz roomRearmed sP2 7).1

/-! Helper lemmas. -/

theorem ratFloor_eq_intFloor (q : ℚ) : Rat.floor q = ⌊q⌋ := by
  rw [Rat.floor_def, Rat.floor_def']

theorem floorMulThousand (n : ℤ) : Rat.floor ((n : ℚ) * 1000) = n * 1000 := by
  rw [ratFloor_eq_intFloor, show ((n : ℚ) * 1000) = ((n * 1000 : ℤ) : ℚ) by push_cast; ring,
    Int.floor_intCast]

theorem ratFloor_nonneg (q : ℚ) (h : 0 ≤ q) : 0 ≤ Rat.floor q := by
  rw [ratFloor_eq_intFloor]
  exact Int.le_floor.mpr (by exact_mod_cast h)

theorem getTeam_modTeam_self (ts : List Team) (t : String) (f : Team → Team)
    (hid : ∀ tm, (f tm).id = tm.id) :
    getTeam (modTeam ts t f) t = (getTeam ts t).map f := by
  induction ts with
  | nil => rfl
  | cons a as ih =>
    by_cases h : a.id = t
    · simp [getTeam, modTeam, h, hid]
    · simp [getTeam, modTeam, h, ih]

theorem getTeam_modTeam_ne (ts : List Team) (t u : String) (f : Team → Team)
    (hid : ∀ tm, (f tm).id = tm.id) (hne : u ≠ t) :
    getTeam (modTeam ts t f) u = getTeam ts u := by
  induction ts with
  | nil => rfl
  | cons a as ih =>
    by_cases h : a.id = t
    · have hau : ¬ a.id = u := by rw [h]; exact fun hh => hne hh.symm
      have htu : ¬ t = u := fun hh => hne hh.symm
      simp [getTeam, modTeam, h, hid, hau, htu, ih]
    · simp [getTeam, modTeam, h, ih]

/-- In the current revision `lockedBySocketId` is vestigial: `buzz`
locks by player id, so the field is null initially and every input
keeps it null.  (This backs the reading of "lock fields" as
`lockedByTeamId` and `lockedByPlayerId`.) -/
theorem lockedBySocketId_always_none :
    initialRoom.lockedBySocketId = none
    ∧ ∀ (r : Room) (a : Action) (now : Int),
        r.lockedBySocketId = none → (applyAction r a now).1.lockedBySocketId = none := by
  constructor
  · rfl
  · intro r a now h
    cases a <;>
      simp only [applyAction, joinRoom, rejoinRoom, setTeam, setTeamName, playerFocus,
        falseStartAttempt, buzz, hostSetTeamCount, hostSetDuration, hostNextRound,
        hostBeepStart, hostPauseTimer, hostIncorrect, hostCorrect, hostAdjustScore,
        hostSetFairPlay, hostUnblockFocus, hostRemoveTeam, hostEndRound, disconnect,
        tickRoom, touchRoom, resetToLobby] <;>
      (repeat' split) <;>
      first
        | rfl
        | exact h

/-- Claim C10: `hostSetFairPlay` with `enabled = false` sets
`fairPlayEnabled` to false and also empties `focusLockedTeams` (so every
previously focus-locked team may buzz again, the `FOCUS_LOCKED`
rejection being conditioned on `fairPlayEnabled`); with `enabled = true`
it leaves `focusLockedTeams` unchanged. -/
theorem hostSetFairPlay_disable_unblocks (r : Room) (now : Int) :
    hostSetFairPlay r false now
      = ({ r with lastActivityAt := now, fairPlayEnabled := false, focusLockedTeams := ∅ },
         [.roomState])
    ∧ hostSetFairPlay r true now
      = ({ r with lastActivityAt := now, fairPlayEnabled := true }, [.roomState]) := by
  constructor <;> rfl

/-- Claim C9: `hostPauseTimer` is not restricted to the armed phase: for
every non-gameOver room (any phase, locked included) it forces
`phase = lobby`, stops the timer, resets `remainingMs = durationMs`, and
clears the lock fields, `lastBuzz`, `firstBuzzTeamId` and
`lockedOutTeams`, while `falseStartTeams` and `focusLockedTeams` are
left unchanged (no update to them appears on the right-hand side). -/
theorem hostPauseTimer_force_lobby (r : Room) (now : Int) (hGO : r.gameOver = false) :
    hostPauseTimer r now
      = ({ r with
           lastActivityAt := now
           timerRunning := false
           timerLastTickAt := none
           remainingMs := r.durationMs
           phase := .lobby
           lastBuzz := none
           lockedByTeamId := none
           lockedByPlayerId := none
           lockedOutTeams := ∅
           firstBuzzTeamId := none }, [.roomState]) := by
  simp [hostPauseTimer, touchRoom, hGO]

/-- Witness for C9, at the concrete reachable locked room. -/
theorem hostPauseTimer_force_lobby_witness :
    roomLocked.phase = .locked ∧ roomLocked.gameOver = false ∧
    hostPauseTimer roomLocked 10
      = ({ roomLocked with
           lastActivityAt := 10
           timerRunning := false
           timerLastTickAt := none
           remainingMs := roomLocked.durationMs
           phase := .lobby
           lastBuzz := none
           lockedByTeamId := none
           lockedByPlayerId := none
           lockedOutTeams := ∅
           firstBuzzTeamId := none }, [.roomState]) :=
  ⟨by decide, by decide, hostPauseTimer_force_lobby roomLocked 10 (by decide)⟩

/-- Counterexample to C1 as stated: after a lobby false start, team "1"
is in `lockedOutTeams`, and `hostBeepStart` does NOT clear it — the team
stays locked out in the armed round. -/
theorem hostBeepStart_lockout_persists :
    roomFS.phase = .lobby ∧ roomFS.gameOver = false ∧ "1" ∈ roomFS.lockedOutTeams ∧
    "1" ∈ ((hostBeepStart roomFS 4).1).lockedOutTeams := by
  decide

/-- Claim C1 (amended): from a non-gameOver lobby room, `hostBeepStart`
moves the phase to armed, clears `falseStartTeams`, `focusLockedTeams`,
`lastBuzz` and `firstBuzzTeamId`, sets `remainingMs = durationMs`,
starts the timer, and broadcasts a `beep` event — but it leaves
`lockedOutTeams` unchanged (a false-start lockout persists into the
armed round). -/
theorem hostBeepStart_arms_keeps_lockouts (r : Room) (now : Int)
    (hPhase : r.phase = .lobby) (hGO : r.gameOver = false) :
    hostBeepStart r now
      = ({ r with
           lastActivityAt := now
           timeUpAt := none
           falseStartTeams := ∅
           focusLockedTeams := ∅
           phase := .armed
           lockedBySocketId := none
           lockedByTeamId := none
           lastBuzz := none
           firstBuzzTeamId := none
           remainingMs := r.durationMs
           timerRunning := true
           timerLastTickAt := some now
           beepAt := some now }, [.beep, .roomState]) := by
  simp [hostBeepStart, touchRoom, hGO]

/-- Witness for C1 (amended), at the concrete lobby room with a pending
false-start lockout. -/
theorem hostBeepStart_arms_keeps_lockouts_witness :
    roomFS.lockedOutTeams = {"1"} ∧
    hostBeepStart roomFS 4
      = ({ roomFS with
           lastActivityAt := 4
           timeUpAt := none
           falseStartTeams := ∅
           focusLockedTeams := ∅
           phase := .armed
           lockedBySocketId := none
           lockedByTeamId := none
           lastBuzz := none
           firstBuzzTeamId := none
           remainingMs := roomFS.durationMs
           timerRunning := true
           timerLastTickAt := some 4
           beepAt := some 4 }, [.beep, .roomState]) :=
  ⟨by decide, hostBeepStart_arms_keeps_lockouts roomFS 4 (by decide) (by decide)⟩

/-- Counterexample to C7 as stated: an invalid duration (`s = 0`) is
rejected with an error but does NOT leave the room unchanged — the
handler calls `touchRoom` before validating, so `lastActivityAt`
changes. -/
theorem hostSetDuration_invalid_still_touches :
    (hostSetDuration initialRoom 0 100).1 ≠ initialRoom ∧
    (hostSetDuration initialRoom 0 100).2 = [.errorMsg "Duration must be 1..600 seconds."] := by
  decide

/-- Claim C7 (amended): for a non-gameOver room, `hostSetDuration`
accepts exactly the numeric seconds `s` with `0 < s ≤ 600` (`s = 0`
rejected, `s = 600` accepted), sets `durationMs = floor(s * 1000)`, and
updates `remainingMs` to the new `durationMs` if and only if the timer
is not running; an invalid `s` changes nothing except `lastActivityAt`,
which every call refreshes. -/
theorem hostSetDuration_accepts_iff (r : Room) (s : ℚ) (now : Int)
    (hGO : r.gameOver = false) :
    ((0 < s ∧ s ≤ 600) →
      hostSetDuration r s now
        = ({ r with
             lastActivityAt := now
             durationMs := Rat.floor (s * 1000)
             remainingMs := if r.timerRunning then r.remainingMs else Rat.floor (s * 1000) },
           [.roomState]))
    ∧ (¬ (0 < s ∧ s ≤ 600) →
      hostSetDuration r s now
        = ({ r with lastActivityAt := now },
           [.errorMsg "Duration must be 1..600 seconds."])) := by
  constructor
  · rintro ⟨h1, h2⟩
    have hv : ¬ (s ≤ 0 ∨ 600 < s) := by
      push_neg
      exact ⟨h1, h2⟩
    by_cases hT : r.timerRunning <;>
      simp [hostSetDuration, touchRoom, hGO, hv, hT]
  · intro hv
    have hv2 : s ≤ 0 ∨ 600 < s := by
      by_contra hc
      push_neg at hc
      exact hv ⟨hc.1, hc.2⟩
    simp [hostSetDuration, touchRoom, hGO, hv2]

/-- Witness for C7 (amended): `s = 600` is accepted (and, the timer
being stopped, `remainingMs` follows), `s = 0` is rejected. -/
theorem hostSetDuration_accepts_iff_witness :
    ((0 : ℚ) < 600 ∧ (600 : ℚ) ≤ 600) ∧
    hostSetDuration initialRoom 600 7
      = ({ initialRoom with
           lastActivityAt := 7
           durationMs := Rat.floor ((600 : ℚ) * 1000)
           remainingMs := Rat.floor ((600 : ℚ) * 1000) }, [.roomState]) ∧
    hostSetDuration initialRoom 0 7
      = ({ initialRoom with lastActivityAt := 7 },
         [.errorMsg "Duration must be 1..600 seconds."]) :=
  ⟨⟨by decide, by decide⟩,
   by simpa using (hostSetDuration_accepts_iff initialRoom 600 7 rfl).1 ⟨by decide, by decide⟩,
   (hostSetDuration_accepts_iff initialRoom 0 7 rfl).2 (by decide)⟩

/-- Counterexample to C6 as stated: a buzz from the locked-out team "1"
in the armed room DOES change a field — `buzz` calls `touchRoom` first,
so `lastActivityAt` moves (here from 4 to 9); the reply is the claimed
`buzzRejected` with reason `TEAM_LOCKED_OUT`. -/
theorem buzz_lockedOut_touches :
    "1" ∈ roomFSArmed.lockedOutTeams ∧ roomFSArmed.phase = .armed ∧
    (0 : Int) < roomFSArmed.remainingMs ∧
    (buzz roomFSArmed sP1 9).1 ≠ roomFSArmed ∧
    (buzz roomFSArmed sP1 9).1 = { roomFSArmed with lastActivityAt := 9 } ∧
    (buzz roomFSArmed sP1 9).2 = [.buzzRejected "TEAM_LOCKED_OUT"] := by
  decide

/-- Claim C6 (amended): a buzz from a sender whose team is in
`lockedOutTeams` changes no field of the room state other than
`lastActivityAt` (which `touchRoom` refreshes on every buzz); when the
room is armed with `remainingMs > 0` and the sender is a non-kicked
owner of that (existing) team, it is answered with
`buzzRejected{reason: TEAM_LOCKED_OUT}`. -/
theorem buzz_lockedOut_rejected (r : Room) (sender : Sender) (pid teamId : String)
    (now : Int) (hp : sender.playerId = some pid) (ht : sender.teamId = some teamId)
    (hLO : teamId ∈ r.lockedOutTeams) :
    (buzz r sender now).1 = { r with lastActivityAt := now }
    ∧ (pid ∉ r.kickedPlayers → alGet r.playerTeams pid = some teamId →
        (getTeam r.teams teamId).isSome = true → r.phase = .armed →
        (0 : Int) < r.remainingMs →
        (buzz r sender now).2 = [.buzzRejected "TEAM_LOCKED_OUT"]) := by
  constructor
  · simp only [buzz, touchRoom, hp, ht, isKicked]
    repeat' split
    any_goals rfl
  · intro hnk ho hteam hph hpos
    obtain ⟨tm, htm⟩ := Option.isSome_iff_exists.mp hteam
    have hrem : ¬ r.remainingMs ≤ 0 := not_le.mpr hpos
    simp [buzz, touchRoom, isKicked, hp, ht, hnk, ho, hph, hrem, hLO, htm]

/-- Counterexample to C8 as stated: a second `setTeam` by the bound
player does change room state (`touchRoom` refreshes `lastActivityAt`),
and a second `setTeam` naming a non-existent team is answered with
`errorMsg` instead of a `teamSet` re-confirmation. -/
theorem setTeam_second_touches :
    alGet roomA.playerTeams "p1" = some "1" ∧
    (setTeam roomA sP1 "2" 50).1 ≠ roomA ∧
    (setTeam roomA sP1 "2" 50).1 = { roomA with lastActivityAt := 50 } ∧
    (setTeam roomA sP1 "2" 50).2 = [.teamSet "1"] ∧
    (setTeam roomA sP1 "7" 50).2 = [.errorMsg "Invalid team."] := by
  decide

/-- Claim C8 (amended): once a player is bound to a team, every
subsequent `setTeam` by that player leaves `playerTeams`, `teamTaken`
and every other field except `lastActivityAt` unchanged; if the
requested id names an existing team (same or different), the original
binding is re-confirmed via `teamSet`; a non-existent team id is
answered with `errorMsg` and likewise changes nothing else.  The
binding is immutable either way. -/
theorem setTeam_binding_immutable (r : Room) (sender : Sender) (pid tOld req : String)
    (now : Int) (hHost : sender.isHost = false) (hp : sender.playerId = some pid)
    (hk : pid ∉ r.kickedPlayers) (hOld : alGet r.playerTeams pid = some tOld) :
    (setTeam r sender req now).1 = { r with lastActivityAt := now }
    ∧ ((getTeam r.teams (jsTrim req)).isSome = true →
        (setTeam r sender req now).2 = [.teamSet tOld])
    ∧ ((getTeam r.teams (jsTrim req)).isSome = false →
        (setTeam r sender req now).2 = [.errorMsg "Invalid team."]) := by
  by_cases hreq : (getTeam r.teams (jsTrim req)).isSome = true
  · have hne : getTeam r.teams (jsTrim req) ≠ none := by
      cases hgt : getTeam r.teams (jsTrim req) <;> simp_all
    refine ⟨?_, fun _ => ?_, fun hcon => by simp [hreq] at hcon⟩ <;>
      simp [setTeam, touchRoom, isKicked, hp, hk, hHost, hne, hOld]
  · have hnone : (getTeam r.teams (jsTrim req)) = none := by
      cases hgt : getTeam r.teams (jsTrim req) <;> simp_all
    refine ⟨?_, fun hcon => by simp [hcon] at hreq, fun _ => ?_⟩ <;>
      simp [setTeam, touchRoom, isKicked, hp, hk, hHost, hnone]

/-- Witness for C8 (amended): the concrete second `setTeam` asking for
the other (existing) team. -/
theorem setTeam_binding_immutable_witness :
    (setTeam roomA sP1 "2" 50).1 = { roomA with lastActivityAt := 50 } ∧
    (setTeam roomA sP1 "2" 50).2 = [.teamSet "1"] :=
  ⟨(setTeam_binding_immutable roomA sP1 "p1" "1" "2" 50 rfl rfl (by decide) (by decide)).1,
   (setTeam_binding_immutable roomA sP1 "p1" "1" "2" 50 rfl rfl (by decide) (by decide)).2.1
     (by decide)⟩

/-- Counterexample to C5 as stated: a locked room with
`gameOver = true` is reachable (`hostEndRound` keeps `lockedByTeamId`,
the ungated `hostRemoveTeam` re-arms and resumes the timer, the ungated
`buzz` locks again), and there `hostCorrect` only replies with the
game-over error: no score increment, no `roundNumber` bump, no
`correctFx`, the phase stays locked — only `lastActivityAt` moves. -/
theorem hostCorrect_gameOver_no_point :
    roomOverLocked.phase = .locked ∧ roomOverLocked.lockedByTeamId = some "2" ∧
    roomOverLocked.gameOver = true ∧
    (hostCorrect roomOverLocked 9).1 = { roomOverLocked with lastActivityAt := 9 } ∧
    (hostCorrect roomOverLocked 9).2 = [.errorMsg gameOverMsg] ∧
    getTeam (hostCorrect roomOverLocked 9).1.teams "2"
      = some { id := "2", name := "Team 2", score := 0 } ∧
    (hostCorrect roomOverLocked 9).1.roundNumber = roomOverLocked.roundNumber ∧
    (hostCorrect roomOverLocked 9).1.phase = .locked := by
  decide

/-- Claim C5 (amended): `hostCorrect` on a locked room with
`gameOver = false` whose answering team `t` exists increments exactly
team `t`:s score by 1, increments `roundNumber` by 1, returns to lobby
with the timer stopped, and broadcasts `correctFx{teamId: t}` together
with the room state; every other team is untouched.  (On a reachable
locked room with `gameOver = true` the command only errors — see the
counterexample above.) -/
theorem hostCorrect_awards_point (r : Room) (t : String) (tm : Team) (now : Int)
    (hGO : r.gameOver = false) (hPh : r.phase = .locked)
    (hL : r.lockedByTeamId = some t) (hT : getTeam r.teams t = some tm) :
    getTeam (hostCorrect r now).1.teams t = some { tm with score := tm.score + 1 }
    ∧ (hostCorrect r now).1.roundNumber = r.roundNumber + 1
    ∧ (hostCorrect r now).1.phase = .lobby
    ∧ (hostCorrect r now).1.timerRunning = false
    ∧ (hostCorrect r now).2 = [.correctFx t, .roomState]
    ∧ ∀ u, u ≠ t → getTeam (hostCorrect r now).1.teams u = getTeam r.teams u := by
  have hts : (hostCorrect r now).1.teams
      = modTeam r.teams t (fun tm2 => { tm2 with score := tm2.score + 1 }) := by
    simp [hostCorrect, touchRoom, resetToLobby, hGO, hPh, hL, hT]
  refine ⟨?_, ?_, ?_, ?_, ?_, ?_⟩
  · rw [hts, getTeam_modTeam_self r.teams t (fun tm2 => { tm2 with score := tm2.score + 1 })
      (fun _ => rfl), hT]
    rfl
  · simp [hostCorrect, touchRoom, resetToLobby, hGO, hPh, hL, hT]
  · simp [hostCorrect, touchRoom, resetToLobby, hGO, hPh, hL, hT]
  · simp [hostCorrect, touchRoom, resetToLobby, hGO, hPh, hL, hT]
  · simp [hostCorrect, touchRoom, resetToLobby, hGO, hPh, hL, hT]
  · intro u hu
    rw [hts, getTeam_modTeam_ne r.teams t u (fun tm2 => { tm2 with score := tm2.score + 1 })
      (fun _ => rfl) hu]

/-- Witness for C5: the concrete locked room; team "1" scores, team "2"
is untouched. -/
theorem hostCorrect_awards_point_witness :
    getTeam (hostCorrect roomLocked 20).1.teams "1"
      = some { id := "1", name := "Team 1", score := 1 }
    ∧ (hostCorrect roomLocked 20).1.roundNumber = roomLocked.roundNumber + 1
    ∧ (hostCorrect roomLocked 20).1.phase = .lobby
    ∧ (hostCorrect roomLocked 20).1.timerRunning = false
    ∧ (hostCorrect roomLocked 20).2 = [.correctFx "1", .roomState]
    ∧ getTeam (hostCorrect roomLocked 20).1.teams "2" = getTeam roomLocked.teams "2" := by
  have H := hostCorrect_awards_point roomLocked "1" { id := "1", name := "Team 1", score := 0 }
    20 (by decide) (by decide) (by decide) (by decide)
  exact ⟨H.1, H.2.1, H.2.2.1, H.2.2.2.1, H.2.2.2.2.1, H.2.2.2.2.2 "2" (by decide)⟩

/-- Counterexample to C3 as stated: in the concrete gameOver room,
`hostSetFairPlay` (a host command, but one with no `gameOver` guard)
changes the state — it clears the non-empty `focusLockedTeams`. -/
theorem gameOver_not_frozen_for_fairPlay :
    roomOver.gameOver = true ∧
    isHostCmd (Action.hostSetFairPlay false) = true ∧
    roomOver.focusLockedTeams = {"1"} ∧
    (applyAction roomOver (.hostSetFairPlay false) 7).1.focusLockedTeams = ∅ ∧
    (applyAction roomOver (.hostSetFairPlay false) 7).1 ≠ roomOver := by
  decide

/-- Claim C3 (amended): with `gameOver = true`, every host command that
checks the flag — `hostSetTeamCount`, `hostSetDuration`,
`hostNextRound`, `hostBeepStart`, `hostPauseTimer`, `hostIncorrect`,
`hostCorrect`, `hostAdjustScore`, `hostEndRound` — only refreshes
`lastActivityAt` and replies with the game-over error; but
`hostSetFairPlay`, `hostUnblockFocus` and `hostRemoveTeam` have no such
guard and can still change the room. -/
theorem gameOver_freezes_gated (r : Room) (a : Action) (now : Int)
    (hGO : r.gameOver = true) (hA : isGatedHostCmd a = true) :
    applyAction r a now = ({ r with lastActivityAt := now }, [.errorMsg gameOverMsg]) := by
  cases a <;> simp_all [applyAction, isGatedHostCmd, hostSetTeamCount, hostSetDuration,
    hostNextRound, hostBeepStart, hostPauseTimer, hostIncorrect, hostCorrect,
    hostAdjustScore, hostEndRound, touchRoom]

/-- Witness for C3 (amended): `hostBeepStart` on the concrete gameOver
room is rejected with only the activity stamp refreshed. -/
theorem gameOver_freezes_gated_witness :
    applyAction roomOver .hostBeepStart 8
      = ({ roomOver with lastActivityAt := 8 }, [.errorMsg gameOverMsg]) :=
  gameOver_freezes_gated roomOver .hostBeepStart 8 (by decide) rfl

/-- Witness for C6 (amended): the locked-out buzz in the concrete armed
room only refreshes the activity stamp, and is rejected with
`TEAM_LOCKED_OUT`. -/
theorem buzz_lockedOut_rejected_witness :
    (buzz roomFSArmed sP1 9).1 = { roomFSArmed with lastActivityAt := 9 }
    ∧ (buzz roomFSArmed sP1 9).2 = [.buzzRejected "TEAM_LOCKED_OUT"] :=
  ⟨(buzz_lockedOut_rejected roomFSArmed sP1 "p1" "1" 9 rfl rfl (by decide)).1,
   (buzz_lockedOut_rejected roomFSArmed sP1 "p1" "1" 9 rfl rfl (by decide)).2
     (by decide) (by decide) (by decide) (by decide) (by decide)⟩

/-- Claim C4: the timer runs only while armed —
`phase ∈ {lobby, locked} → timerRunning = false` holds in the initial
room and is preserved by every input (buzz, every host command,
disconnect, join, rejoin, focus, false start, and the timer tick), hence
in every reachable room state. -/
theorem timer_only_when_armed :
    phaseTimerInv initialRoom
    ∧ ∀ (r : Room) (a : Action) (now : Int),
        phaseTimerInv r → phaseTimerInv (applyAction r a now).1 := by
  constructor
  · intro h
    rfl
  · intro r a now hInv
    cases a <;>
      simp only [applyAction, joinRoom, rejoinRoom, setTeam, setTeamName, playerFocus,
        falseStartAttempt, buzz, hostSetTeamCount, hostSetDuration, hostNextRound,
        hostBeepStart, hostPauseTimer, hostIncorrect, hostCorrect, hostAdjustScore,
        hostSetFairPlay, hostUnblockFocus, hostRemoveTeam, hostEndRound, disconnect,
        tickRoom, touchRoom, resetToLobby, phaseTimerInv] at hInv ⊢ <;>
      (repeat' split) <;>
      intro h <;>
      first
        | rfl
        | exact hInv h
        | simp_all

/-- Witness for C4: preservation applied at the concrete armed room with
the winning buzz. -/
theorem timer_only_when_armed_witness :
    phaseTimerInv (applyAction roomArmed (.buzz sP1) 4).1 :=
  timer_only_when_armed.2 roomArmed (.buzz sP1) 4 (by decide)

/-- Counterexample to C2 as stated: from the reachable room with the
timer running (`remainingMs = durationMs = 15000`), `hostSetDuration 1`
sets `durationMs = 1000` but leaves `remainingMs = 15000`, so
`remainingMs ≤ durationMs` is broken right after a completed
`hostSetDuration`. -/
theorem durationShrink_breaks_range :
    remInRange roomRunning ∧ roomRunning.timerRunning = true ∧ ¬ remInRange roomShrunk := by
  have hfl : Rat.floor ((1 : ℚ) * 1000) = 1000 := by simpa using floorMulThousand 1
  have hs : roomShrunk
      = { roomRunning with lastActivityAt := 0, durationMs := Rat.floor ((1 : ℚ) * 1000) } := by
    simp only [roomShrunk, hostSetDuration, touchRoom]
    rw [if_neg (by decide), if_neg (by decide), if_pos (by decide)]
  rw [hfl] at hs
  refine ⟨by decide, by decide, ?_⟩
  rw [hs]
  decide

/-- Claim C2 (amended): `0 ≤ remainingMs` (and `0 ≤ durationMs`) holds
initially and is preserved by every operation; the full range
`0 ≤ remainingMs ≤ durationMs` is preserved by every timer tick, and by
`hostSetDuration` whenever the timer is NOT running — but not by
`hostSetDuration` while the timer runs, which can leave
`remainingMs > durationMs`. -/
theorem remainingMs_bounds :
    (timeNonneg initialRoom
      ∧ ∀ (r : Room) (a : Action) (now : Int),
          timeNonneg r → timeNonneg (applyAction r a now).1)
    ∧ (∀ (r : Room) (now : Int), remInRange r → remInRange (tickRoom r now).1)
    ∧ (∀ (r : Room) (s : ℚ) (now : Int), r.timerRunning = false → remInRange r →
        remInRange (hostSetDuration r s now).1) := by
  refine ⟨⟨by decide, ?_⟩, ?_, ?_⟩
  · intro r a now hInv
    obtain ⟨h1, h2⟩ := hInv
    cases a
    case hostSetDuration s =>
      by_cases hGO : r.gameOver
      · simp [applyAction, hostSetDuration, touchRoom, hGO, timeNonneg, h1, h2]
      · by_cases hs : s ≤ 0 ∨ 600 < s
        · simp [applyAction, hostSetDuration, touchRoom, hGO, hs, timeNonneg, h1, h2]
        · have hs0 : 0 < s := by
            push_neg at hs
            exact hs.1
          have hfl : 0 ≤ Rat.floor (s * 1000) :=
            ratFloor_nonneg _ (mul_nonneg hs0.le (by norm_num))
          by_cases hT : r.timerRunning <;>
            simp [applyAction, hostSetDuration, touchRoom, hGO, hs, hT, timeNonneg, h1, h2, hfl]
    all_goals
      simp only [applyAction, joinRoom, rejoinRoom, setTeam, setTeamName, playerFocus,
        falseStartAttempt, buzz, hostSetTeamCount, hostNextRound,
        hostBeepStart, hostPauseTimer, hostIncorrect, hostCorrect, hostAdjustScore,
        hostSetFairPlay, hostUnblockFocus, hostRemoveTeam, hostEndRound, disconnect,
        tickRoom, touchRoom, resetToLobby, timeNonneg] at *
    all_goals repeat' split
    all_goals try dsimp only
    all_goals constructor <;> omega
  · intro r now hR
    obtain ⟨h1, h2⟩ := hR
    simp only [tickRoom, touchRoom, resetToLobby, remInRange] at *
    repeat' split
    all_goals try dsimp only
    all_goals constructor <;> omega
  · intro r s now hT hR
    obtain ⟨h1, h2⟩ := hR
    by_cases hGO : r.gameOver
    · simp [hostSetDuration, touchRoom, hGO, remInRange, h1, h2]
    · by_cases hs : s ≤ 0 ∨ 600 < s
      · simp [hostSetDuration, touchRoom, hGO, hs, remInRange, h1, h2]
      · have hs0 : 0 < s := by
          push_neg at hs
          exact hs.1
        have hfl : 0 ≤ Rat.floor (s * 1000) :=
          ratFloor_nonneg _ (mul_nonneg hs0.le (by norm_num))
        simp [hostSetDuration, touchRoom, hGO, hs, hT, remInRange, hfl]

/-- Witness for C2 (amended), at concrete reachable rooms. -/
theorem remainingMs_bounds_witness :
    timeNonneg (applyAction initialRoom .hostBeepStart 0).1
    ∧ remInRange (tickRoom roomRunning 100).1
    ∧ remInRange (hostSetDuration initialRoom 30 1).1 :=
  ⟨remainingMs_bounds.1.2 initialRoom .hostBeepStart 0 (by decide),
   remainingMs_bounds.2.1 roomRunning 100 (by decide),
   remainingMs_bounds.2.2 initialRoom 30 1 rfl (by decide)⟩

end Adabra
